import Mathlib

set_option maxRecDepth 4000

/-!
Verification of the lead-generation / segmentation pipeline
(`src/leads_gen/email_scraping.py`) against its specification.

The Python source is shallowly embedded below.  Python strings are
modelled as Lean `String`s, but every string operation used by the
source (`split`, `strip`, `lower`, `startswith`, `join`, slicing) is
re-implemented structurally over `String.data : List Char` so that all
definitions evaluate inside the kernel.  Python `set`s of strings are
modelled as `List String` with membership; Python dicts with `.get(k,0)`
defaulting are modelled as functions `String → Nat`.  Python floats are
modelled as exact unnormalised fractions (`PyNum`); at the magnitudes
the classifier compares (integers and small decimals against 0.5, 1.5,
60, 1000) IEEE doubles are exact, so the model is faithful.
`NaN` results of `pd.to_numeric(..., errors := coerce)` are modelled as
`Option.none`, with `none` comparing false on both `≤` and `≥`, exactly
as NaN does.  The remote generative-AI call is out of scope per the
spec and is modelled as an oracle `Nat → Option String` (`none` models
any exception raised inside the `try` of `generate_batch`).
-/

/-! ## Python-style string primitives (structural, kernel-evaluable) -/

/-- Python `str.split(c)` on a character separator, over `List Char`.
`"".split(c) = [""]`, matching Python. -/
def splitOnCharList (c : Char) : List Char → List (List Char)
  | [] => [[]]
  | x :: xs =>
    match splitOnCharList c xs with
    | [] => [[]]
    | h :: t => if x == c then [] :: h :: t else (x :: h) :: t

/-- The whitespace set of Python `str.strip()`. -/
def pyIsSpace (c : Char) : Bool :=
  c == ' ' || c == '\t' || c == '\n' || c == '\r' || c == '\x0b' || c == '\x0c'

/-- Python `str.strip()` over `List Char`. -/
def stripList (l : List Char) : List Char :=
  ((l.dropWhile pyIsSpace).reverse.dropWhile pyIsSpace).reverse

/-- Python `str.split(c)`. -/
def pySplit (c : Char) (s : String) : List String :=
  (splitOnCharList c s.data).map String.mk

/-- Python `str.strip()`. -/
def pyStrip (s : String) : String := String.mk (stripList s.data)

/-- Python `str.lower()` (ASCII range; the source only lowercases
ASCII identifiers, emails and domains). -/
def pyLower (s : String) : String := String.mk (s.data.map Char.toLower)

/-- Python `str.startswith(p)`. -/
def pyStartsWith (p s : String) : Bool := p.data.isPrefixOf s.data

/-- Python `c in s` for a single character. -/
def pyContainsChar (c : Char) (s : String) : Bool := s.data.contains c

/-- Python slicing `s[n:]` (drop the first `n` characters). -/
def pyDrop (n : Nat) (s : String) : String := String.mk (s.data.drop n)

/-- Python `len(s)`. -/
def pyLen (s : String) : Nat := s.data.length

/-- Python `sep.join(xs)`. -/
def pyJoin (sep : String) : List String → String
  | [] => ""
  | [x] => x
  | x :: y :: t => x ++ sep ++ pyJoin sep (y :: t)

/-- Python `s.count(c)` for a single character. -/
def pyCountChar (c : Char) (s : String) : Nat := s.data.count c

/-! ## `LeadGenerator._extract_domain` (source lines 310-320)

```python
domain = re.sub(r'^https?://', '', url.lower())
domain = re.sub(r'^www\.', '', domain)
domain = domain.split('/')[0].split('?')[0]
return domain
```
Both `re.sub` calls are anchored at the string start, so each performs
at most one prefix removal.  The `try/except` can never fire on a
string argument.  -/

def extract_domain (url : String) : String :=
  let d0 := pyLower url
  let d1 :=
    if pyStartsWith "https://" d0 then pyDrop 8 d0
    else if pyStartsWith "http://" d0 then pyDrop 7 d0
    else d0
  let d2 := if pyStartsWith "www." d1 then pyDrop 4 d1 else d1
  let d3 := (pySplit '/' d2).headD ""
  (pySplit '?' d3).headD ""

/-! Facts about `extract_domain` needed for the idempotence analysis:
its output is already lowercase, contains no `/` and no `?`, and hence
cannot start with a protocol prefix.  -/

theorem toLower_toLower (c : Char) : Char.toLower (Char.toLower c) = Char.toLower c := by
  have hval : ∀ n : Nat, n < 55296 → (Char.ofNat n).toNat = n := by
    intro n h
    simp only [Char.ofNat, Nat.isValidChar, Char.ofNatAux, Char.toNat, UInt32.ofNat']
    rw [dif_pos (Or.inl h)]
    rfl
  simp only [Char.toLower]
  by_cases h : c.toNat ≥ 65 ∧ c.toNat ≤ 90
  · rw [if_pos h]
    have h2 : (Char.ofNat (c.toNat + 32)).toNat = c.toNat + 32 := hval _ (by omega)
    rw [if_neg]
    rw [h2]
    omega
  · rw [if_neg h, if_neg h]

/-- A character list is "lower-fixed" when lowering does not change it. -/
def LowerFixed (l : List Char) : Prop := ∀ c ∈ l, Char.toLower c = c

theorem lowerFixed_map_toLower (l : List Char) : LowerFixed (l.map Char.toLower) := by
  intro c hc
  rcases List.mem_map.mp hc with ⟨a, _, rfl⟩
  exact toLower_toLower a

theorem lowerFixed_sublist {l l' : List Char} (h : l'.Sublist l) (hl : LowerFixed l) :
    LowerFixed l' := fun c hc => hl c (h.mem hc)

theorem splitOnCharList_sublist (c : Char) (l : List Char) :
    ∀ p ∈ splitOnCharList c l, p.Sublist l := by
  induction l with
  | nil =>
    intro p hp
    simp only [splitOnCharList, List.mem_singleton] at hp
    simp [hp]
  | cons x xs ih =>
    intro p hp
    simp only [splitOnCharList] at hp
    rcases hsp : splitOnCharList c xs with _ | ⟨h, t⟩
    · rw [hsp] at hp
      simp only [List.mem_singleton] at hp
      simp [hp]
    · rw [hsp] at hp
      dsimp only at hp
      by_cases hxc : x == c
      · rw [if_pos hxc] at hp
        rcases List.mem_cons.mp hp with h1 | h2
        · simp [h1]
        · exact (ih p (hsp ▸ h2)).cons x
      · rw [if_neg hxc] at hp
        rcases List.mem_cons.mp hp with h1 | h2
        · subst h1
          exact (ih h (hsp ▸ List.mem_cons_self h t)).cons₂ x
        · exact (ih p (hsp ▸ List.mem_cons_of_mem h h2)).cons x

theorem splitOnCharList_not_mem (c : Char) (l : List Char) :
    ∀ p ∈ splitOnCharList c l, c ∉ p := by
  induction l with
  | nil =>
    intro p hp
    simp only [splitOnCharList, List.mem_singleton] at hp
    simp [hp]
  | cons x xs ih =>
    intro p hp
    simp only [splitOnCharList] at hp
    rcases hsp : splitOnCharList c xs with _ | ⟨h, t⟩
    · rw [hsp] at hp
      simp only [List.mem_singleton] at hp
      simp [hp]
    · rw [hsp] at hp
      dsimp only at hp
      by_cases hxc : x == c
      · rw [if_pos hxc] at hp
        rcases List.mem_cons.mp hp with h1 | h2
        · simp [h1]
        · exact ih p (hsp ▸ h2)
      · rw [if_neg hxc] at hp
        rcases List.mem_cons.mp hp with h1 | h2
        · subst h1
          intro hmem
          rcases List.mem_cons.mp hmem with h3 | h4
          · exact hxc (by simp [h3])
          · exact ih h (hsp ▸ List.mem_cons_self h t) h4
        · exact ih p (hsp ▸ List.mem_cons_of_mem h h2)

/-- If the separator does not occur, Python `split` returns the whole string. -/
theorem splitOnCharList_of_not_mem (c : Char) (l : List Char) (h : c ∉ l) :
    splitOnCharList c l = [l] := by
  induction l with
  | nil => rfl
  | cons x xs ih =>
    simp only [splitOnCharList]
    rw [ih (fun hm => h (List.mem_cons_of_mem x hm))]
    dsimp only
    rw [if_neg (by simp; intro he; exact h (by simp [he]))]

theorem splitOnCharList_ne_nil (c : Char) (l : List Char) : splitOnCharList c l ≠ [] := by
  cases l with
  | nil => simp [splitOnCharList]
  | cons x xs =>
    simp only [splitOnCharList]
    rcases splitOnCharList c xs with _ | ⟨h, t⟩
    · simp
    · dsimp only
      split <;> simp

theorem pySplit_headD_data (c : Char) (s : String) :
    ((pySplit c s).headD "").data = (splitOnCharList c s.data).headD [] := by
  unfold pySplit
  rcases hsp : splitOnCharList c s.data with _ | ⟨h, t⟩
  · exact absurd hsp (splitOnCharList_ne_nil c s.data)
  · rfl

theorem headD_mem {α : Type} (l : List α) (d : α) (h : l ≠ []) : l.headD d ∈ l := by
  cases l with
  | nil => exact absurd rfl h
  | cons x xs => simp

theorem map_toLower_of_lowerFixed {l : List Char} (h : LowerFixed l) :
    l.map Char.toLower = l := by
  induction l with
  | nil => rfl
  | cons x xs ih =>
    simp only [List.map_cons]
    rw [h x (List.mem_cons_self x xs), ih (fun c hc => h c (List.mem_cons_of_mem x hc))]

/-- The output of `extract_domain` is lowercase and contains neither `/` nor `?`. -/
theorem extract_domain_props (u : String) :
    LowerFixed (extract_domain u).data ∧
    '/' ∉ (extract_domain u).data ∧ '?' ∉ (extract_domain u).data := by
  unfold extract_domain
  set d0 := pyLower u with hd0
  set d1 := if pyStartsWith "https://" d0 then pyDrop 8 d0
            else if pyStartsWith "http://" d0 then pyDrop 7 d0 else d0 with hd1
  set d3 := (pySplit '/' (if pyStartsWith "www." d1 then pyDrop 4 d1 else d1)).headD "" with hd3
  have hlow0 : LowerFixed d0.data := lowerFixed_map_toLower u.data
  have hsub1 : d1.data.Sublist d0.data := by
    rw [hd1]
    split
    · exact List.drop_sublist 8 d0.data
    · split
      · exact List.drop_sublist 7 d0.data
      · exact List.Sublist.refl d0.data
  have hsub2 : (if pyStartsWith "www." d1 then pyDrop 4 d1 else d1).data.Sublist d1.data := by
    split
    · exact List.drop_sublist 4 d1.data
    · exact List.Sublist.refl d1.data
  have hsub3 : d3.data.Sublist (if pyStartsWith "www." d1 then pyDrop 4 d1 else d1).data := by
    rw [hd3, pySplit_headD_data]
    exact splitOnCharList_sublist _ _ _
      (headD_mem _ _ (splitOnCharList_ne_nil _ _))
  have hnos : '/' ∉ d3.data := by
    rw [hd3, pySplit_headD_data]
    exact splitOnCharList_not_mem _ _ _
      (headD_mem _ _ (splitOnCharList_ne_nil _ _))
  have hsub4 : ((pySplit '?' d3).headD "").data.Sublist d3.data := by
    rw [pySplit_headD_data]
    exact splitOnCharList_sublist _ _ _
      (headD_mem _ _ (splitOnCharList_ne_nil _ _))
  have hnoq : '?' ∉ ((pySplit '?' d3).headD "").data := by
    rw [pySplit_headD_data]
    exact splitOnCharList_not_mem _ _ _
      (headD_mem _ _ (splitOnCharList_ne_nil _ _))
  refine ⟨?_, ?_, hnoq⟩
  · exact lowerFixed_sublist (hsub4.trans (hsub3.trans (hsub2.trans hsub1))) hlow0
  · exact fun hm => hnos (hsub4.mem hm)

theorem pyLower_of_lowerFixed {s : String} (h : LowerFixed s.data) : pyLower s = s := by
  unfold pyLower
  rw [map_toLower_of_lowerFixed h]

theorem not_startsWith_of_not_mem {p s : String} {c : Char} (hc : c ∈ p.data)
    (hs : c ∉ s.data) : pyStartsWith p s = false := by
  unfold pyStartsWith
  by_contra hcon
  have hpre : p.data.IsPrefix s.data :=
    List.isPrefixOf_iff_prefix.mp (by revert hcon; cases p.data.isPrefixOf s.data <;> simp)
  exact hs (hpre.sublist.mem hc)

/-- Applying `extract_domain` to its own output only strips one more
leading `www.` (everything else in the pipeline is the identity there). -/
theorem extract_domain_extract_domain (u : String) :
    extract_domain (extract_domain u) =
      (if pyStartsWith "www." (extract_domain u)
       then pyDrop 4 (extract_domain u) else extract_domain u) := by
  obtain ⟨hlow, hnos, hnoq⟩ := extract_domain_props u
  set d := extract_domain u with hd
  conv_lhs => rw [extract_domain]
  rw [pyLower_of_lowerFixed hlow]
  rw [not_startsWith_of_not_mem (p := "https://") (by decide) hnos]
  rw [not_startsWith_of_not_mem (p := "http://") (by decide) hnos]
  simp only [Bool.false_eq_true, if_false]
  set d2 := if pyStartsWith "www." d then pyDrop 4 d else d with hd2
  have hnos2 : '/' ∉ d2.data := by
    rw [hd2]
    split
    · exact fun hm => hnos ((List.drop_sublist 4 d.data).mem hm)
    · exact hnos
  have hnoq2 : '?' ∉ d2.data := by
    rw [hd2]
    split
    · exact fun hm => hnoq ((List.drop_sublist 4 d.data).mem hm)
    · exact hnoq
  have h3 : (pySplit '/' d2).headD "" = d2 := by
    apply String.ext
    rw [pySplit_headD_data, splitOnCharList_of_not_mem _ _ hnos2]
    rfl
  rw [h3]
  apply String.ext
  rw [pySplit_headD_data, splitOnCharList_of_not_mem _ _ hnoq2]
  rfl

/-- C5 counterexample: `extract_domain` is NOT idempotent.  The `re.sub`
on `^www\.` removes only one `www.` prefix, so a second application of
the function strips a second one: on `"www.www.foo.com"` the first
application yields `"www.foo.com"` and the second `"foo.com"`. -/
theorem claim_C5_counterexample :
    extract_domain (extract_domain "www.www.foo.com") ≠
      extract_domain "www.www.foo.com" := by decide

/-- C5 (amended): `extract_domain` strips the protocol prefix, a single
leading `"www."`, and any path/query suffix; on the spec example
`"https://www.Foo.com/page?x=1"` it returns `"foo.com"`.  A second
application behaves as one further `"www."` prefix strip, so the
function is idempotent exactly on those inputs whose extracted domain
does not itself begin with `"www."` (not, e.g., on `"www.www.foo.com"`). -/
theorem claim_C5_theorem :
    extract_domain "https://www.Foo.com/page?x=1" = "foo.com" ∧
    (∀ u : String, extract_domain (extract_domain u) =
      (if pyStartsWith "www." (extract_domain u)
       then pyDrop 4 (extract_domain u) else extract_domain u)) ∧
    (∀ u : String, pyStartsWith "www." (extract_domain u) = false →
      extract_domain (extract_domain u) = extract_domain u) := by
  refine ⟨by decide, extract_domain_extract_domain, ?_⟩
  intro u h
  rw [extract_domain_extract_domain u, h]
  simp

/-- Witness for the conditional clause of `claim_C5_theorem` at the
concrete input `"https://www.Foo.com/page?x=1"`. -/
theorem claim_C5_witness :
    extract_domain (extract_domain "https://www.Foo.com/page?x=1") =
      extract_domain "https://www.Foo.com/page?x=1" :=
  claim_C5_theorem.2.2 "https://www.Foo.com/page?x=1" (by decide)

/-! ## `LeadGenerator` duplicate-tracking state and
`_parse_and_filter_batch` (source lines 300-308 and 322-370)

`generated_emails`, `generated_names`, `generated_domains` are Python
sets, modelled as lists with membership; `duplicates_prevented` is the
corresponding entry of the `stats` dict (the source accumulates a
per-call `duplicates_found` and adds it to the stats under an
`if duplicates_found > 0` guard, which is arithmetically the same as
adding one per dropped duplicate).  The per-line `try/except` of the
source can only fire on string-operation failures that have no
counterpart in the model, so its `continue` path is not reachable here
beyond the explicit `len(parts) < 3` check. -/

structure GenState where
  generated_emails : List String
  generated_names : List String
  generated_domains : List String
  duplicates_prevented : Nat
deriving DecidableEq

/-- `parts = [part.strip() for part in line.split(',')]`. -/
def lineParts (line : String) : List String := (pySplit ',' line).map pyStrip

/-- `name = parts[0].lower().strip()`. -/
def lineName (line : String) : String := pyStrip (pyLower ((lineParts line).getD 0 ""))

/-- `email = parts[1].lower().strip()`. -/
def lineEmail (line : String) : String := pyStrip (pyLower ((lineParts line).getD 1 ""))

/-- `website = parts[2].strip()`. -/
def lineWebsite (line : String) : String := pyStrip ((lineParts line).getD 2 "")

/-- `domain = self._extract_domain(website)`. -/
def lineDomain (line : String) : String := extract_domain (lineWebsite line)

/-- `if not line.strip() or line.startswith('name,'): continue`. -/
def isSkippedLine (line : String) : Bool :=
  pyStrip line == "" || pyStartsWith "name," line

/-- `if len(parts) < 3: continue`. -/
def isMalformedLine (line : String) : Bool := (lineParts line).length < 3

/-- `email in self.generated_emails or name in self.generated_names or
domain in self.generated_domains`. -/
def hasCollision (st : GenState) (line : String) : Bool :=
  decide (lineEmail line ∈ st.generated_emails) ||
  decide (lineName line ∈ st.generated_names) ||
  decide (lineDomain line ∈ st.generated_domains)

/-- The three `add` calls; the domain is added only when non-empty
(`if domain:`). -/
def registerLine (st : GenState) (line : String) : GenState :=
  { st with
    generated_emails := lineEmail line :: st.generated_emails,
    generated_names := lineName line :: st.generated_names,
    generated_domains :=
      if lineDomain line ≠ "" then lineDomain line :: st.generated_domains
      else st.generated_domains }

/-- The body of the `for line in lines` loop, acting on the pair
(duplicate-tracking state, `filtered_lines`). -/
def stepLine (acc : GenState × List String) (line : String) : GenState × List String :=
  if isSkippedLine line then acc
  else if isMalformedLine line then acc
  else if hasCollision acc.1 line then
    ({ acc.1 with duplicates_prevented := acc.1.duplicates_prevented + 1 }, acc.2)
  else (registerLine acc.1 line, acc.2 ++ [line])

def processLines (acc : GenState × List String) (lines : List String) :
    GenState × List String :=
  lines.foldl stepLine acc

/-- `LeadGenerator._parse_and_filter_batch`. -/
def parseFilterBatch (st : GenState) (batch_data : String) : GenState × String :=
  if batch_data == "" then (st, "")
  else
    let r := processLines (st, []) (pySplit '\n' (pyStrip batch_data))
    (r.1, pyJoin "\n" r.2)

/-- Per-line behaviour: a non-skipped well-formed line is dropped with
the duplicate counter bumped exactly when one of its keys collides,
and otherwise registered and kept. -/
theorem stepLine_spec (st : GenState) (kept : List String) (line : String)
    (h1 : isSkippedLine line = false) (h2 : isMalformedLine line = false) :
    (hasCollision st line = true →
      stepLine (st, kept) line =
        ({ st with duplicates_prevented := st.duplicates_prevented + 1 }, kept)) ∧
    (hasCollision st line = false →
      stepLine (st, kept) line = (registerLine st line, kept ++ [line])) := by
  constructor
  · intro hc
    simp [stepLine, h1, h2, hc]
  · intro hc
    simp [stepLine, h1, h2, hc]

/-- Kept exactly when no collision (the appended-iff direction). -/
theorem stepLine_kept_iff (acc : GenState × List String) (line : String)
    (h1 : isSkippedLine line = false) (h2 : isMalformedLine line = false) :
    (stepLine acc line).2 = acc.2 ++ [line] ↔ hasCollision acc.1 line = false := by
  obtain ⟨st, kept⟩ := acc
  constructor
  · intro hk
    by_contra hc
    have hc' : hasCollision st line = true := by
      revert hc; cases hasCollision st line <;> simp
    rw [(stepLine_spec st kept line h1 h2).1 hc'] at hk
    simp at hk
  · intro hc
    rw [(stepLine_spec st kept line h1 h2).2 hc]

/-- Identity-key-set growth order between two generator states. -/
def GSLe (st st' : GenState) : Prop :=
  (∀ e ∈ st.generated_emails, e ∈ st'.generated_emails) ∧
  (∀ n ∈ st.generated_names, n ∈ st'.generated_names) ∧
  (∀ d ∈ st.generated_domains, d ∈ st'.generated_domains)

theorem GSLe_refl (st : GenState) : GSLe st st :=
  ⟨fun _ h => h, fun _ h => h, fun _ h => h⟩

theorem GSLe_trans {a b c : GenState} (h1 : GSLe a b) (h2 : GSLe b c) : GSLe a c :=
  ⟨fun e he => h2.1 e (h1.1 e he), fun n hn => h2.2.1 n (h1.2.1 n hn),
   fun d hd => h2.2.2 d (h1.2.2 d hd)⟩

theorem stepLine_GSLe (acc : GenState × List String) (line : String) :
    GSLe acc.1 (stepLine acc line).1 := by
  unfold stepLine
  split
  · exact GSLe_refl _
  · split
    · exact GSLe_refl _
    · split
      · exact GSLe_refl _
      · refine ⟨fun e he => List.mem_cons_of_mem _ he,
          fun n hn => List.mem_cons_of_mem _ hn, fun d hd => ?_⟩
        simp only [registerLine]
        split
        · exact List.mem_cons_of_mem _ hd
        · exact hd

theorem processLines_GSLe (lines : List String) :
    ∀ acc : GenState × List String, GSLe acc.1 (processLines acc lines).1 := by
  induction lines with
  | nil => exact fun acc => GSLe_refl _
  | cons x xs ih =>
    intro acc
    exact GSLe_trans (stepLine_GSLe acc x) (ih (stepLine acc x))

/-- All three identity keys of `line` are recorded in `st` (the domain
key only when non-empty, since empty domains are never registered). -/
def KeysIn (line : String) (st : GenState) : Prop :=
  lineEmail line ∈ st.generated_emails ∧
  lineName line ∈ st.generated_names ∧
  (lineDomain line ≠ "" → lineDomain line ∈ st.generated_domains)

/-- Two accepted lines share no identity key — up to the empty-domain
exception the code's `if domain:` guard creates. -/
def NoShare (a b : String) : Prop :=
  lineEmail a ≠ lineEmail b ∧ lineName a ≠ lineName b ∧
  (lineDomain a ≠ "" → lineDomain a ≠ lineDomain b)

/-- Loop invariant: every kept line has its keys registered, and the
kept lines pairwise share no key. -/
def FilterInv (acc : GenState × List String) : Prop :=
  (∀ l ∈ acc.2, KeysIn l acc.1) ∧ List.Pairwise NoShare acc.2

theorem KeysIn_mono {line : String} {st st' : GenState} (h : GSLe st st')
    (hk : KeysIn line st) : KeysIn line st' :=
  ⟨h.1 _ hk.1, h.2.1 _ hk.2.1, fun hd => h.2.2 _ (hk.2.2 hd)⟩

theorem stepLine_inv (acc : GenState × List String) (line : String)
    (h : FilterInv acc) : FilterInv (stepLine acc line) := by
  obtain ⟨st, kept⟩ := acc
  obtain ⟨hkeys, hpair⟩ := h
  by_cases h1 : isSkippedLine line = true
  · simpa [stepLine, h1] using ⟨hkeys, hpair⟩
  · have h1' : isSkippedLine line = false := by revert h1; cases isSkippedLine line <;> simp
    by_cases h2 : isMalformedLine line = true
    · simpa [stepLine, h1', h2] using ⟨hkeys, hpair⟩
    · have h2' : isMalformedLine line = false := by
        revert h2; cases isMalformedLine line <;> simp
      by_cases h3 : hasCollision st line = true
      · rw [(stepLine_spec st kept line h1' h2').1 h3]
        exact ⟨fun l hl => hkeys l hl, hpair⟩
      · have h3' : hasCollision st line = false := by
          revert h3; cases hasCollision st line <;> simp
        rw [(stepLine_spec st kept line h1' h2').2 h3']
        have hreg : GSLe st (registerLine st line) := by
          refine ⟨fun e he => List.mem_cons_of_mem _ he,
            fun n hn => List.mem_cons_of_mem _ hn, fun d hd => ?_⟩
          simp only [registerLine]
          split
          · exact List.mem_cons_of_mem _ hd
          · exact hd
        have hnc : ¬ (lineEmail line ∈ st.generated_emails) ∧
            ¬ (lineName line ∈ st.generated_names) ∧
            ¬ (lineDomain line ∈ st.generated_domains) := by
          have := h3'
          unfold hasCollision at this
          simp only [Bool.or_eq_false_iff, decide_eq_false_iff_not] at this
          exact ⟨this.1.1, this.1.2, this.2⟩
        constructor
        · intro l hl
          rcases List.mem_append.mp hl with hl1 | hl2
          · exact KeysIn_mono hreg (hkeys l hl1)
          · have : l = line := by simpa using hl2
            subst this
            refine ⟨List.mem_cons_self _ _, List.mem_cons_self _ _, fun hd => ?_⟩
            simp only [registerLine]
            rw [if_pos hd]
            exact List.mem_cons_self _ _
        · rw [List.pairwise_append]
          refine ⟨hpair, List.pairwise_singleton _ _, ?_⟩
          intro a ha b hb
          have hb' : b = line := by simpa using hb
          subst hb'
          obtain ⟨hea, hna, hda⟩ := hkeys a ha
          exact ⟨fun he => hnc.1 (he ▸ hea),
            fun hn => hnc.2.1 (hn ▸ hna),
            fun hdne hd => hnc.2.2 (hd ▸ hda hdne)⟩

theorem processLines_inv (lines : List String) :
    ∀ acc : GenState × List String, FilterInv acc → FilterInv (processLines acc lines) := by
  induction lines with
  | nil => exact fun acc h => h
  | cons x xs ih => exact fun acc h => ih (stepLine acc x) (stepLine_inv acc x h)

/-- Deduplication state holding one previously-seen record's keys. -/
def demoPrevState : GenState := ⟨["seen@x.com"], ["seen co"], ["seen.com"], 0⟩

def demoFresh : String := "Fresh Co,fresh@f.com,fresh.com"

def demoDup : String := "Other Co,seen@x.com,other.com"

def demoBatch : String := demoFresh ++ "\n" ++ demoDup

/-- C2: on a parseable line (non-blank, not a repeated header, at least
3 comma-separated fields) the filter drops the line and counts a
duplicate exactly when its lowercased email, lowercased name, or
extracted website domain is already tracked, and otherwise registers
the keys and keeps the line; on a batch of one fresh line plus one line
repeating a previously-seen email, only the fresh line is returned and
the duplicate count is 1. -/
theorem claim_C2_theorem :
    (∀ (st : GenState) (kept : List String) (line : String),
      isSkippedLine line = false → isMalformedLine line = false →
      (hasCollision st line = true →
        stepLine (st, kept) line =
          ({ st with duplicates_prevented := st.duplicates_prevented + 1 }, kept)) ∧
      (hasCollision st line = false →
        stepLine (st, kept) line = (registerLine st line, kept ++ [line])) ∧
      ((stepLine (st, kept) line).2 = kept ++ [line] ↔
        hasCollision st line = false)) ∧
    (parseFilterBatch demoPrevState demoBatch).2 = demoFresh ∧
    (parseFilterBatch demoPrevState demoBatch).1.duplicates_prevented = 1 := by
  refine ⟨fun st kept line h1 h2 => ⟨(stepLine_spec st kept line h1 h2).1,
    (stepLine_spec st kept line h1 h2).2, stepLine_kept_iff (st, kept) line h1 h2⟩,
    by decide, by decide⟩

/-- Witness for `claim_C2_theorem` at a concrete duplicate line. -/
theorem claim_C2_witness :
    stepLine (demoPrevState, []) demoDup =
      ({ demoPrevState with
          duplicates_prevented := demoPrevState.duplicates_prevented + 1 }, []) :=
  ((claim_C2_theorem.1 demoPrevState [] demoDup (by decide) (by decide)).1 (by decide))

/-- C3 counterexample: two accepted records CAN share an identity key.
The code registers website domains only when non-empty, so two lines
whose website field is empty (extracted domain `""`) are both accepted
even though their domain identity components coincide. -/
theorem claim_C3_counterexample :
    (processLines ((⟨[], [], [], 0⟩ : GenState), [])
        ["alice co,alice@a.com,", "bob co,bob@b.com,"]).2 =
      ["alice co,alice@a.com,", "bob co,bob@b.com,"] ∧
    lineDomain "alice co,alice@a.com," = lineDomain "bob co,bob@b.com," := by
  decide

/-- C3 (amended): across any run segment the three identity-key sets
only grow; a parseable line is appended exactly when none of its three
identity components collides with a tracked key at the moment it is
evaluated; and any two accepted records differ on email and name keys
and on non-empty domain keys — two accepted records may share an EMPTY
extracted-domain key, because `if domain:` skips registering empty
domains. -/
theorem claim_C3_theorem :
    (∀ (acc : GenState × List String) (lines : List String),
      GSLe acc.1 (processLines acc lines).1) ∧
    (∀ (acc : GenState × List String) (line : String),
      isSkippedLine line = false → isMalformedLine line = false →
      ((stepLine acc line).2 = acc.2 ++ [line] ↔ hasCollision acc.1 line = false)) ∧
    (∀ (st : GenState) (lines : List String),
      List.Pairwise NoShare (processLines (st, []) lines).2) := by
  refine ⟨fun acc lines => processLines_GSLe lines acc, stepLine_kept_iff, ?_⟩
  intro st lines
  exact (processLines_inv lines (st, []) ⟨by simp, List.Pairwise.nil⟩).2

/-- Witness for `claim_C3_theorem` at a concrete fresh line. -/
theorem claim_C3_witness :
    (stepLine ((demoPrevState, [])) demoFresh).2 = [] ++ [demoFresh] :=
  (claim_C3_theorem.2.1 (demoPrevState, []) demoFresh (by decide) (by decide)).mpr
    (by decide)

/-! ## `LeadGenerator.process_batches` orchestration
(source lines 63-96, 372-506)

The remote generative call plus everything else inside the `try` of
`generate_batch` is modelled as an oracle `resps : Nat → Option String`
(batch number to response text; `none` models any raised exception —
the `except` increments `failed_batches` and returns `None`).  Key
rotation (`rotate_key` / `configure_genai` / `increment_usage`) touches
only the rotator's own counters, which are modelled separately below.
`asyncio.gather` schedules cooperatively: each task mutates the shared
dedup sets synchronously after its remote call returns; the model
linearises this in issuance order (one admissible completion order —
the spec itself declares the order non-deterministic).  Since every
exception is caught inside `generate_batch`, `isinstance(result,
Exception)` is unreachable and a result is a string or `None`.
File writes are modelled as the list of chunks written to the master
CSV; each `save_backup` call appends the snapshot it serialises to
`backupWrites` (the JSON file on disk always holds the last element).
Timestamps, logging and `asyncio.sleep` pacing carry no model state. -/

structure OrchConfig where
  num_batches : Nat
  concurrency_level : Nat
  leads_per_batch : Nat
  backup_interval : Nat
deriving DecidableEq

/-- The `Config` defaults of the source (lines 66-72). -/
def defaultOrchConfig : OrchConfig := ⟨667, 12, 15, 25⟩

/-- The fixed 25-column CSV header written once (lines 454-459). -/
def csvHeader : String :=
  "name,email,website,industry,business_type,location,current_social_presence_score,instagram_presence,tiktok_presence,youtube_shorts_presence,facebook_presence,linkedin_presence,last_post_estimate,follower_count_estimate,content_frequency_score,visual_content_suitability,target_demographic_alignment,competition_saturation_level,estimated_monthly_revenue,marketing_budget_indicators,pain_points,opportunity_score,contact_likelihood,ideal_content_strategy,projected_roi_potential\n"

structure OrchState where
  gen : GenState
  completed_batches : Nat
  total_leads_generated : Nat
  failed_batches : Nat
  backup_data : List String
  fileChunks : List String
  backupWrites : List (List String)
deriving DecidableEq

/-- State after opening the output file and writing the header. -/
def initOrchState : OrchState := ⟨⟨[], [], [], 0⟩, 0, 0, 0, [], [csvHeader], []⟩

/-- `LeadGenerator.generate_batch` (lines 372-401): on success the
response text is stripped and filtered through the dedup sets; on any
exception the failed-batch counter is incremented once and `None`
returned. -/
def generate_batch (resp : Option String) (s : OrchState) : OrchState × Option String :=
  match resp with
  | none => ({ s with failed_batches := s.failed_batches + 1 }, none)
  | some t =>
    let r := parseFilterBatch s.gen (pyStrip t)
    ({ s with gen := r.1 }, some r.2)

/-- Result-processing loop body (lines 475-491) combined with
`save_results` (lines 427-435): both guard on
`result and len(result.strip()) > 50`; an accepted batch is appended to
the master CSV with a trailing newline, appended to `backup_data`,
bumps `completed_batches`, and adds `result.count('\n')` to the lead
total. -/
def processResult (s : OrchState) (r : Option String) : OrchState :=
  match r with
  | none => s
  | some d =>
    if 50 < pyLen (pyStrip d) then
      { s with
        fileChunks := s.fileChunks ++ [d ++ "\n"],
        backup_data := s.backup_data ++ [d],
        completed_batches := s.completed_batches + 1,
        total_leads_generated := s.total_leads_generated + pyCountChar '\n' d }
    else s

/-- `LeadGenerator.save_backup` (lines 437-444): rewrites the backup
JSON with the whole of `backup_data`; the trace keeps each snapshot. -/
def save_backup (s : OrchState) : OrchState :=
  { s with backupWrites := s.backupWrites ++ [s.backup_data] }

/-- The `asyncio.gather` of one window, linearised in issuance order:
threads the shared state through `generate_batch` and collects the
per-batch results in order. -/
def runWindowGen (resps : Nat → Option String) (s : OrchState) :
    List Nat → OrchState × List (Option String)
  | [] => (s, [])
  | n :: ns =>
    let r := generate_batch (resps n) s
    let rest := runWindowGen resps r.1 ns
    (rest.1, r.2 :: rest.2)

/-- `if self.stats['completed_batches'] % self.config.backup_interval == 0:
await self.save_backup()` (lines 501-502), evaluated once per window. -/
def backupCheck (cfg : OrchConfig) (s2 : OrchState) : OrchState :=
  if s2.completed_batches % cfg.backup_interval == 0 then save_backup s2 else s2

/-- One iteration of the window loop (lines 464-502): run the window's
batches, process each result in order, then the backup check. -/
def processWindow (cfg : OrchConfig) (resps : Nat → Option String)
    (s : OrchState) (nums : List Nat) : OrchState :=
  backupCheck cfg
    ((runWindowGen resps s nums).2.foldl processResult (runWindowGen resps s nums).1)

/-- Python `range(start, stop, step)` for positive `step`, via
structural fuel (`stop` bounds the iteration count). -/
def pyRangeAux (step : Nat) : Nat → Nat → Nat → List Nat
  | 0, _, _ => []
  | fuel + 1, start, stop =>
    if start < stop then start :: pyRangeAux step fuel (start + step) stop else []

def pyRange (start stop step : Nat) : List Nat := pyRangeAux step stop start stop

/-- `batch_nums = range(i, min(i + concurrency_level, num_batches + 1))`. -/
def windowNums (cfg : OrchConfig) (i : Nat) : List Nat :=
  List.range' i (min (i + cfg.concurrency_level) (cfg.num_batches + 1) - i)

/-- `LeadGenerator.process_batches` (lines 446-506): header, the window
loop over `range(1, num_batches + 1, concurrency_level)`, and the final
`save_backup`. -/
def process_batches (cfg : OrchConfig) (resps : Nat → Option String) : OrchState :=
  let s := (pyRange 1 (cfg.num_batches + 1) cfg.concurrency_level).foldl
    (fun s i => processWindow cfg resps s (windowNums cfg i)) initOrchState
  save_backup s

theorem generate_batch_proj (r : Option String) (s : OrchState) :
    (generate_batch r s).1.completed_batches = s.completed_batches ∧
    (generate_batch r s).1.total_leads_generated = s.total_leads_generated ∧
    (generate_batch r s).1.backup_data = s.backup_data ∧
    (generate_batch r s).1.fileChunks = s.fileChunks ∧
    (generate_batch r s).1.backupWrites = s.backupWrites ∧
    (generate_batch r s).1.failed_batches =
      s.failed_batches + (if r.isNone then 1 else 0) := by
  cases r <;> simp [generate_batch]

theorem runWindowGen_proj (resps : Nat → Option String) (nums : List Nat) :
    ∀ s : OrchState,
    (runWindowGen resps s nums).1.completed_batches = s.completed_batches ∧
    (runWindowGen resps s nums).1.backup_data = s.backup_data ∧
    (runWindowGen resps s nums).1.fileChunks = s.fileChunks ∧
    (runWindowGen resps s nums).1.backupWrites = s.backupWrites ∧
    (runWindowGen resps s nums).1.failed_batches =
      s.failed_batches + nums.countP (fun n => (resps n).isNone) := by
  induction nums with
  | nil => intro s; simp [runWindowGen]
  | cons n ns ih =>
    intro s
    obtain ⟨hc, ht, hb, hf, hbw, hfail⟩ := generate_batch_proj (resps n) s
    obtain ⟨ihc, ihb, ihf, ihbw, ihfail⟩ := ih (generate_batch (resps n) s).1
    refine ⟨ihc.trans hc, ihb.trans hb, ihf.trans hf, ihbw.trans hbw, ?_⟩
    show (runWindowGen resps (generate_batch (resps n) s).1 ns).1.failed_batches = _
    rw [ihfail, hfail, List.countP_cons]
    omega

theorem processResult_proj (s : OrchState) (r : Option String) :
    (processResult s r).failed_batches = s.failed_batches ∧
    (processResult s r).backupWrites = s.backupWrites ∧
    (processResult s r).backup_data.length + s.completed_batches =
      s.backup_data.length + (processResult s r).completed_batches := by
  match r with
  | none => exact ⟨rfl, rfl, rfl⟩
  | some d =>
    simp only [processResult]
    split
    · refine ⟨rfl, rfl, ?_⟩
      simp only [List.length_append, List.length_cons, List.length_nil]
      omega
    · exact ⟨rfl, rfl, rfl⟩

theorem foldResults_proj (rs : List (Option String)) :
    ∀ s : OrchState,
    ((rs.foldl processResult s).failed_batches = s.failed_batches) ∧
    ((rs.foldl processResult s).backupWrites = s.backupWrites) ∧
    ((rs.foldl processResult s).backup_data.length + s.completed_batches =
      s.backup_data.length + (rs.foldl processResult s).completed_batches) := by
  induction rs with
  | nil => intro s; exact ⟨rfl, rfl, rfl⟩
  | cons r rs ih =>
    intro s
    obtain ⟨h1, h2, h3⟩ := processResult_proj s r
    obtain ⟨ih1, ih2, ih3⟩ := ih (processResult s r)
    simp only [List.foldl_cons]
    exact ⟨ih1.trans h1, ih2.trans h2, by omega⟩

theorem save_backup_proj (s : OrchState) :
    (save_backup s).completed_batches = s.completed_batches ∧
    (save_backup s).failed_batches = s.failed_batches ∧
    (save_backup s).backup_data = s.backup_data ∧
    (save_backup s).fileChunks = s.fileChunks ∧
    (save_backup s).backupWrites = s.backupWrites ++ [s.backup_data] := by
  simp [save_backup]

theorem processWindow_failed (cfg : OrchConfig) (resps : Nat → Option String)
    (s : OrchState) (nums : List Nat) :
    (processWindow cfg resps s nums).failed_batches =
      s.failed_batches + nums.countP (fun n => (resps n).isNone) := by
  obtain ⟨_, _, _, _, hwfail⟩ := runWindowGen_proj resps nums s
  obtain ⟨hffail, _, _⟩ := foldResults_proj (runWindowGen resps s nums).2
    (runWindowGen resps s nums).1
  unfold processWindow backupCheck
  split
  · simp only [save_backup]
    rw [hffail, hwfail]
  · rw [hffail, hwfail]

/-- A window writes at most one snapshot, and writes one exactly when
the post-window global success counter is divisible by the interval. -/
theorem processWindow_backup (cfg : OrchConfig) (resps : Nat → Option String)
    (s : OrchState) (nums : List Nat) :
    ((processWindow cfg resps s nums).backupWrites = s.backupWrites ∨
      (processWindow cfg resps s nums).backupWrites =
        s.backupWrites ++ [(processWindow cfg resps s nums).backup_data]) ∧
    ((processWindow cfg resps s nums).backupWrites ≠ s.backupWrites ↔
      (processWindow cfg resps s nums).completed_batches % cfg.backup_interval = 0) := by
  have hwbw := (runWindowGen_proj resps nums s).2.2.2.1
  have hfbw := (foldResults_proj (runWindowGen resps s nums).2
    (runWindowGen resps s nums).1).2.1
  have hs2bw : ((runWindowGen resps s nums).2.foldl processResult
      (runWindowGen resps s nums).1).backupWrites = s.backupWrites := hfbw.trans hwbw
  unfold processWindow backupCheck
  split
  · next hdiv =>
    simp only [save_backup]
    rw [hs2bw]
    constructor
    · exact Or.inr rfl
    · constructor
      · intro _
        simpa using hdiv
      · intro _
        intro hcon
        have := congrArg List.length hcon
        simp at this
  · next hdiv =>
    rw [hs2bw]
    constructor
    · exact Or.inl rfl
    · constructor
      · intro h
        exact absurd rfl h
      · intro h
        exact absurd (Nat.beq_eq_true_eq _ _ ▸ h) (by simpa using hdiv)

/-- Run invariant for the backup trace: `backup_data` has exactly one
entry per completed batch, and every snapshot written so far holds a
multiple-of-interval number of entries. -/
def BackupInv (interval : Nat) (s : OrchState) : Prop :=
  s.backup_data.length = s.completed_batches ∧
  ∀ w ∈ s.backupWrites, interval ∣ w.length

theorem processWindow_backupInv (cfg : OrchConfig) (resps : Nat → Option String)
    (s : OrchState) (nums : List Nat) (h : BackupInv cfg.backup_interval s) :
    BackupInv cfg.backup_interval (processWindow cfg resps s nums) := by
  obtain ⟨hwc, hwb, _, hwbw, _⟩ := runWindowGen_proj resps nums s
  obtain ⟨_, hfbw, hflen⟩ := foldResults_proj (runWindowGen resps s nums).2
    (runWindowGen resps s nums).1
  have hs2len : ((runWindowGen resps s nums).2.foldl processResult
      (runWindowGen resps s nums).1).backup_data.length =
      ((runWindowGen resps s nums).2.foldl processResult
        (runWindowGen resps s nums).1).completed_batches := by
    rw [hwc, hwb] at hflen
    have h1 := h.1
    omega
  have hs2bw : ((runWindowGen resps s nums).2.foldl processResult
      (runWindowGen resps s nums).1).backupWrites = s.backupWrites := hfbw.trans hwbw
  unfold processWindow backupCheck
  split
  · next hdiv =>
    refine ⟨hs2len, ?_⟩
    simp only [save_backup, hs2bw]
    intro w hw
    rcases List.mem_append.mp hw with h1 | h2
    · exact h.2 w h1
    · have hweq := List.mem_singleton.mp h2
      rw [hweq, hs2len]
      exact Nat.dvd_of_mod_eq_zero (by simpa using hdiv)
  · next hdiv =>
    refine ⟨hs2len, ?_⟩
    rw [hs2bw]
    exact h.2

theorem foldWindows_failed (cfg : OrchConfig) (resps : Nat → Option String)
    (ws : List Nat) :
    ∀ s : OrchState,
    (ws.foldl (fun s i => processWindow cfg resps s (windowNums cfg i)) s).failed_batches =
      s.failed_batches +
        (ws.flatMap (windowNums cfg)).countP (fun n => (resps n).isNone) := by
  induction ws with
  | nil => intro s; simp
  | cons i is ih =>
    intro s
    simp only [List.foldl_cons, List.flatMap_cons, List.countP_append]
    rw [ih, processWindow_failed]
    omega

theorem foldWindows_backupInv (cfg : OrchConfig) (resps : Nat → Option String)
    (ws : List Nat) :
    ∀ s : OrchState, BackupInv cfg.backup_interval s →
    BackupInv cfg.backup_interval
      (ws.foldl (fun s i => processWindow cfg resps s (windowNums cfg i)) s) := by
  induction ws with
  | nil => exact fun s h => h
  | cons i is ih =>
    intro s h
    exact ih _ (processWindow_backupInv cfg resps s (windowNums cfg i) h)

/-- The windows `range(1, N + 1, C)` with their batch-number ranges
partition the batch numbers `1 .. N` exactly. -/
theorem pyRangeAux_cover (cfg : OrchConfig) (hC : 0 < cfg.concurrency_level) :
    ∀ fuel start, cfg.num_batches + 1 - start ≤ fuel →
    (pyRangeAux cfg.concurrency_level fuel start (cfg.num_batches + 1)).flatMap
        (windowNums cfg) =
      List.range' start (cfg.num_batches + 1 - start) := by
  intro fuel
  induction fuel with
  | zero =>
    intro start h
    have h0 : cfg.num_batches + 1 - start = 0 := by omega
    rw [h0]
    simp [pyRangeAux]
  | succ fuel ih =>
    intro start h
    by_cases hlt : start < cfg.num_batches + 1
    · simp only [pyRangeAux, if_pos hlt, List.flatMap_cons]
      rw [ih (start + cfg.concurrency_level) (by omega)]
      unfold windowNums
      by_cases hle : start + cfg.concurrency_level ≤ cfg.num_batches + 1
      · have hmin : min (start + cfg.concurrency_level) (cfg.num_batches + 1) =
            start + cfg.concurrency_level := by omega
        rw [hmin]
        have hC' : start + cfg.concurrency_level - start = cfg.concurrency_level := by
          omega
        rw [hC']
        have happ := List.range'_append start cfg.concurrency_level
          (cfg.num_batches + 1 - (start + cfg.concurrency_level)) 1
        rw [one_mul] at happ
        rw [happ]
        have hsum : cfg.num_batches + 1 - (start + cfg.concurrency_level) +
            cfg.concurrency_level = cfg.num_batches + 1 - start := by omega
        rw [hsum]
      · have hmin : min (start + cfg.concurrency_level) (cfg.num_batches + 1) =
            cfg.num_batches + 1 := by omega
        rw [hmin]
        have h2 : cfg.num_batches + 1 - (start + cfg.concurrency_level) = 0 := by omega
        rw [h2]
        simp
    · simp only [pyRangeAux, if_neg hlt]
      have h0 : cfg.num_batches + 1 - start = 0 := by omega
      rw [h0]
      simp

theorem pyRange_cover (cfg : OrchConfig) (hC : 0 < cfg.concurrency_level) :
    (pyRange 1 (cfg.num_batches + 1) cfg.concurrency_level).flatMap (windowNums cfg) =
      List.range' 1 cfg.num_batches := by
  have h := pyRangeAux_cover cfg hC (cfg.num_batches + 1) 1 (by omega)
  simpa [pyRange] using h

/-- Every raised remote-call exception adds exactly one to the
failed-batch counter, and nothing else does: the final count is the
number of failing batches among `1 .. num_batches`. -/
theorem process_batches_failed (cfg : OrchConfig) (resps : Nat → Option String)
    (hC : 0 < cfg.concurrency_level) :
    (process_batches cfg resps).failed_batches =
      (List.range' 1 cfg.num_batches).countP (fun n => (resps n).isNone) := by
  unfold process_batches
  rw [(save_backup_proj _).2.1]
  rw [foldWindows_failed, pyRange_cover cfg hC]
  simp [initOrchState]

def scenarioBatchB : String :=
  "Alpha Consulting Group,info@alphacg.com,alphacg.com,consulting,Austin TX,extra"

def scenarioBatchD : String :=
  "Bravo Media House,hello@bravomedia.com,bravomedia.com,media,Denver CO,extra"

def scenarioBatchF : String :=
  "Cedar Lawn Services,team@cedarlawn.com,cedarlawn.com,landscaping,Boise ID,extra"

/-- The spec's end-to-end scenario: 4 batches, concurrency 2, batches
1 and 3 raise in the remote call, batches 2 and 4 return one fresh
lead line each. -/
def scenario4Cfg : OrchConfig := ⟨4, 2, 15, 25⟩

def scenario4Resps : Nat → Option String := fun n =>
  if n == 2 then some scenarioBatchB else if n == 4 then some scenarioBatchD else none

/-- C9: any exception of the remote call is caught and counted exactly
once in `failed_batches`, the batch is dropped without retry and the
run continues — the final count equals the number of failing batches
among `1 .. num_batches`; in the spec scenario (4 batches, 2 failing,
2 succeeding with accepted lines) the final statistics report 2
completed and 2 failed batches and the master CSV holds the header
plus exactly the accepted lines of the two successful batches. -/
theorem claim_C9_theorem :
    (∀ (cfg : OrchConfig) (resps : Nat → Option String),
      0 < cfg.concurrency_level →
      (process_batches cfg resps).failed_batches =
        (List.range' 1 cfg.num_batches).countP (fun n => (resps n).isNone)) ∧
    (process_batches scenario4Cfg scenario4Resps).completed_batches = 2 ∧
    (process_batches scenario4Cfg scenario4Resps).failed_batches = 2 ∧
    (process_batches scenario4Cfg scenario4Resps).fileChunks =
      [csvHeader, scenarioBatchB ++ "\n", scenarioBatchD ++ "\n"] := by
  exact ⟨process_batches_failed, by decide, by decide, by decide⟩

/-- Witness for the universally quantified clause of `claim_C9_theorem`
at a concrete one-batch always-failing run. -/
theorem claim_C9_witness :
    (process_batches ⟨1, 1, 15, 25⟩ (fun _ => none)).failed_batches =
      (List.range' 1 1).countP
        (fun n => ((fun _ => (none : Option String)) n).isNone) :=
  claim_C9_theorem.1 ⟨1, 1, 15, 25⟩ (fun _ => none) (by decide)

/-- C10: a batch whose remote call succeeds but whose deduplicated text
has at most 50 characters after stripping changes nothing: it is not
written to the master CSV, not added to the backup data, and bumps
neither `completed_batches` nor `failed_batches`; hence
`completed + failed` can be strictly below `num_batches`, as on a
one-batch run returning a short text. -/
theorem claim_C10_theorem :
    (∀ (s : OrchState) (d : String),
      pyLen (pyStrip d) ≤ 50 → processResult s (some d) = s) ∧
    (∀ (s : OrchState) (t : String),
      (generate_batch (some t) s).1.completed_batches = s.completed_batches ∧
      (generate_batch (some t) s).1.failed_batches = s.failed_batches ∧
      (generate_batch (some t) s).1.fileChunks = s.fileChunks ∧
      (generate_batch (some t) s).1.backup_data = s.backup_data) ∧
    (process_batches ⟨1, 1, 15, 25⟩ (fun _ => some "too short")).completed_batches +
      (process_batches ⟨1, 1, 15, 25⟩ (fun _ => some "too short")).failed_batches <
      (⟨1, 1, 15, 25⟩ : OrchConfig).num_batches := by
  refine ⟨?_, ?_, by decide⟩
  · intro s d h
    simp [processResult, Nat.not_lt.mpr h]
  · intro s t
    simp [generate_batch]

/-- Witness for `claim_C10_theorem` at a concrete short result. -/
theorem claim_C10_witness :
    processResult initOrchState (some "x") = initOrchState :=
  claim_C10_theorem.1 initOrchState "x" (by decide)

/-- A run in which the global success counter passes the backup
interval mid-window: 3 batches all succeed inside one window of
concurrency 3, with `backup_interval = 2`. -/
def denseCfg : OrchConfig := ⟨3, 3, 15, 2⟩

def denseResps : Nat → Option String := fun n =>
  if n == 1 then some scenarioBatchB else if n == 2 then some scenarioBatchD
  else some scenarioBatchF

/-- C4 counterexample: the success counter rises 0,1,2,3 inside the
single window, so it reaches 2 — a multiple of `backup_interval = 2` —
yet the run performs exactly one backup write, the unconditional final
one, whose snapshot holds 3 entries.  A write triggered when the
counter reached 2 would be a second write (with a 2-entry snapshot);
none exists, because the interval condition is only evaluated once per
window, after the whole window completes (line 501 sits in the window
loop, not in the per-batch loop). -/
theorem claim_C4_counterexample :
    (process_batches denseCfg denseResps).completed_batches = 3 ∧
    denseCfg.backup_interval ∣ 2 ∧
    (process_batches denseCfg denseResps).backupWrites.map List.length = [3] := by
  decide

/-- C4 (amended): the backup condition is evaluated once per window:
after a window completes, a snapshot is written iff the global success
counter is then divisible by `backup_interval` (so a counter that
passes a multiple mid-window triggers nothing, and a fully-failed
window with the counter still divisible does trigger a write).  Every
snapshot so written therefore holds a multiple-of-interval number of
entries, one per completed batch; and a final backup write always
occurs after all windows, holding the full backup data. -/
theorem claim_C4_theorem :
    (∀ (cfg : OrchConfig) (resps : Nat → Option String)
        (s : OrchState) (nums : List Nat),
      ((processWindow cfg resps s nums).backupWrites = s.backupWrites ∨
        (processWindow cfg resps s nums).backupWrites =
          s.backupWrites ++ [(processWindow cfg resps s nums).backup_data]) ∧
      ((processWindow cfg resps s nums).backupWrites ≠ s.backupWrites ↔
        (processWindow cfg resps s nums).completed_batches % cfg.backup_interval = 0)) ∧
    (∀ (cfg : OrchConfig) (resps : Nat → Option String),
      (process_batches cfg resps).backupWrites.getLast? =
        some (process_batches cfg resps).backup_data) ∧
    (∀ (cfg : OrchConfig) (resps : Nat → Option String),
      0 < cfg.backup_interval →
      ∀ w ∈ (process_batches cfg resps).backupWrites.dropLast,
        cfg.backup_interval ∣ w.length) := by
  refine ⟨processWindow_backup, ?_, ?_⟩
  · intro cfg resps
    unfold process_batches
    simp [save_backup]
  · intro cfg resps hI w hw
    revert hw
    unfold process_batches
    generalize hfold : (pyRange 1 (cfg.num_batches + 1) cfg.concurrency_level).foldl
      (fun s i => processWindow cfg resps s (windowNums cfg i)) initOrchState = sfin
    have hinv : BackupInv cfg.backup_interval sfin := by
      rw [← hfold]
      exact foldWindows_backupInv cfg resps _ initOrchState ⟨rfl, by simp [initOrchState]⟩
    simp only [save_backup, List.dropLast_concat]
    intro hw
    exact hinv.2 w hw

/-- Witness for `claim_C4_theorem` on a concrete one-batch run with
`backup_interval = 1`, whose single non-final snapshot holds the one
accepted batch. -/
theorem claim_C4_witness :
    [scenarioBatchB] ∈ (process_batches ⟨1, 1, 15, 1⟩
        (fun _ => some scenarioBatchB)).backupWrites.dropLast ∧
    (1 : Nat) ∣ ([scenarioBatchB] : List String).length :=
  ⟨by decide, claim_C4_theorem.2.2 ⟨1, 1, 15, 1⟩ (fun _ => some scenarioBatchB)
    (by decide) [scenarioBatchB] (by decide)⟩

/-! ## `EnhancedAPIKeyRotator.rotate_key` (source lines 97-224)

`key_usage_count` / `key_error_count` are dicts read through
`.get(key, 0)`, modelled as total functions; `api_keys` is the
deduplicated validated pool.  `random.random() < 0.05` is modelled by
the boolean `randBelow`.  The constructor exits the process when the
pool is empty, so the pool is non-empty in every reachable state and
`current_key_index` always lies below the pool length (it starts at 0
and is only ever reassigned modulo the length). -/

structure RotState where
  api_keys : List String
  current_key_index : Nat
  key_usage_count : String → Nat
  key_error_count : String → Nat
  max_requests_per_key : Nat
  max_errors_per_key : Nat

/-- `get_current_key` (lines 151-155); the `""` default is unreachable
for in-range indices. -/
def get_current_key (s : RotState) : String := s.api_keys.getD s.current_key_index ""

/-- The `for _ in range(len(self.api_keys))` scan of lines 187-191:
advance the index circularly, stopping at the first key whose error
count is below the cap; after a full fruitless cycle the index is back
where it started. -/
def findHealthyIdx (s : RotState) : Nat → Nat → Nat
  | 0, idx => idx
  | fuel + 1, idx =>
    let idx2 := (idx + 1) % s.api_keys.length
    if s.key_error_count (s.api_keys.getD idx2 "") < s.max_errors_per_key then idx2
    else findHealthyIdx s fuel idx2

/-- The `should_rotate` disjunction of lines 178-182: usage cap
reached, error cap reached, or the 5% random draw (`randBelow`). -/
def should_rotate_check (s : RotState) (randBelow : Bool) : Bool :=
  decide (s.max_requests_per_key ≤ s.key_usage_count (get_current_key s)) ||
  decide (s.max_errors_per_key ≤ s.key_error_count (get_current_key s)) ||
  randBelow

/-- State after the index-advancing scan of lines 184-191. -/
def rotatedState (s : RotState) : RotState :=
  { s with current_key_index :=
      findHealthyIdx s s.api_keys.length s.current_key_index }

/-- `rotate_key` (lines 168-198). -/
def rotate_key (s : RotState) (randBelow : Bool) : RotState × String :=
  if s.api_keys.length == 1 then (s, get_current_key s)
  else if should_rotate_check s randBelow then
    (rotatedState s, get_current_key (rotatedState s))
  else (s, get_current_key s)

theorem getD_mem_of_lt {l : List String} {n : Nat} (h : n < l.length) (d : String) :
    l.getD n d ∈ l := by
  rw [List.getD_eq_getElem l d h]
  exact l.getElem_mem h

/-- If some position reachable within `fuel` steps of the circular scan
holds a below-cap key, the scan stops at a below-cap key. -/
theorem findHealthyIdx_spec (s : RotState) :
    ∀ (fuel idx : Nat),
    (∃ t, t < fuel ∧
      s.key_error_count
        (s.api_keys.getD ((idx + 1 + t) % s.api_keys.length) "") <
        s.max_errors_per_key) →
    s.key_error_count (s.api_keys.getD (findHealthyIdx s fuel idx) "") <
      s.max_errors_per_key := by
  intro fuel
  induction fuel with
  | zero =>
    intro idx h
    obtain ⟨t, ht, _⟩ := h
    omega
  | succ fuel ih =>
    intro idx h
    by_cases hh : s.key_error_count
        (s.api_keys.getD ((idx + 1) % s.api_keys.length) "") < s.max_errors_per_key
    · have heq : findHealthyIdx s (fuel + 1) idx = (idx + 1) % s.api_keys.length := by
        simp only [findHealthyIdx]
        rw [if_pos hh]
      rw [heq]
      exact hh
    · simp only [findHealthyIdx, if_neg hh]
      obtain ⟨t, ht, hgood⟩ := h
      match t, ht with
      | 0, _ => exact absurd (by simpa using hgood) hh
      | t + 1, ht =>
        apply ih ((idx + 1) % s.api_keys.length)
        refine ⟨t, by omega, ?_⟩
        have harith : ((idx + 1) % s.api_keys.length + 1 + t) % s.api_keys.length =
            (idx + 1 + (t + 1)) % s.api_keys.length := by
          rw [(by omega : (idx + 1) % s.api_keys.length + 1 + t =
            (idx + 1) % s.api_keys.length + (1 + t))]
          rw [Nat.mod_add_mod]
          rw [(by omega : idx + 1 + (1 + t) = idx + 1 + (t + 1))]
        rw [harith]
        exact hgood

/-- A fruitless full-cycle scan returns to the starting index. -/
theorem findHealthyIdx_stuck (s : RotState)
    (hall : ∀ k ∈ s.api_keys, s.max_errors_per_key ≤ s.key_error_count k) :
    ∀ (fuel idx : Nat), idx < s.api_keys.length →
    findHealthyIdx s fuel idx = (idx + fuel) % s.api_keys.length := by
  intro fuel
  induction fuel with
  | zero =>
    intro idx hidx
    simp [findHealthyIdx, Nat.mod_eq_of_lt hidx]
  | succ fuel ih =>
    intro idx hidx
    have hn : 0 < s.api_keys.length := by omega
    have hmem : s.api_keys.getD ((idx + 1) % s.api_keys.length) "" ∈ s.api_keys :=
      getD_mem_of_lt (Nat.mod_lt _ hn) ""
    have hh : ¬ s.key_error_count
        (s.api_keys.getD ((idx + 1) % s.api_keys.length) "") < s.max_errors_per_key := by
      have := hall _ hmem
      omega
    simp only [findHealthyIdx, if_neg hh]
    rw [ih ((idx + 1) % s.api_keys.length) (Nat.mod_lt _ hn)]
    conv_rhs => rw [show idx + (fuel + 1) = idx + 1 + fuel by omega]
    rw [Nat.mod_add_mod]

/-- C7: with a single credential `rotate_key` returns that credential
and leaves the state untouched whatever its counters; with any pool,
whenever some credential is below the error cap the selected credential
is below the error cap (in particular a credential at or above the cap
is never selected while another is below it); and when every credential
is at or above the cap the scan wraps around and stays on the current
index. -/
theorem claim_C7_theorem :
    (∀ (s : RotState) (b : Bool) (k : String),
      s.api_keys = [k] → s.current_key_index < s.api_keys.length →
      (rotate_key s b).2 = k ∧ (rotate_key s b).1 = s) ∧
    (∀ (s : RotState) (b : Bool),
      s.current_key_index < s.api_keys.length →
      (∃ k ∈ s.api_keys, s.key_error_count k < s.max_errors_per_key) →
      s.key_error_count (rotate_key s b).2 < s.max_errors_per_key) ∧
    (∀ (s : RotState) (b : Bool),
      s.current_key_index < s.api_keys.length →
      (∀ k ∈ s.api_keys, s.max_errors_per_key ≤ s.key_error_count k) →
      (rotate_key s b).1.current_key_index = s.current_key_index) := by
  refine ⟨?_, ?_, ?_⟩
  · intro s b k hk hidx
    have hlen : s.api_keys.length = 1 := by rw [hk]; rfl
    have hidx0 : s.current_key_index = 0 := by omega
    have hcur : get_current_key s = k := by
      unfold get_current_key
      rw [hk, hidx0]
      rfl
    unfold rotate_key
    rw [if_pos (by simpa using hlen)]
    exact ⟨hcur, rfl⟩
  · intro s b hidx hex
    have hn : 0 < s.api_keys.length := by omega
    unfold rotate_key
    by_cases h1 : s.api_keys.length = 1
    · rw [if_pos (by simpa using h1)]
      obtain ⟨k, hkmem, hkerr⟩ := hex
      obtain ⟨k0, hk0⟩ := List.length_eq_one.mp h1
      have : k = k0 := by
        rw [hk0] at hkmem
        simpa using hkmem
      have hidx0 : s.current_key_index = 0 := by omega
      have hcur : get_current_key s = k0 := by
        unfold get_current_key
        rw [hk0, hidx0]
        rfl
      rw [hcur]
      rw [← this]
      exact hkerr
    · rw [if_neg (by simpa using h1)]
      by_cases hrot : should_rotate_check s b = true
      · rw [if_pos hrot]
        obtain ⟨k, hkmem, hkerr⟩ := hex
        obtain ⟨j, hj, hkj⟩ := List.getElem_of_mem hkmem
        have hkj' : s.api_keys.getD j "" = k := by
          rw [List.getD_eq_getElem s.api_keys "" hj]
          exact hkj
        show s.key_error_count (get_current_key (rotatedState s)) < s.max_errors_per_key
        unfold get_current_key rotatedState
        apply findHealthyIdx_spec
        by_cases haj : (s.current_key_index + 1) % s.api_keys.length ≤ j
        · refine ⟨j - (s.current_key_index + 1) % s.api_keys.length, ?_, ?_⟩
          · omega
          · rw [Nat.add_mod (s.current_key_index + 1)]
            rw [Nat.mod_eq_of_lt (by omega :
              j - (s.current_key_index + 1) % s.api_keys.length < s.api_keys.length)]
            rw [(by omega : (s.current_key_index + 1) % s.api_keys.length +
              (j - (s.current_key_index + 1) % s.api_keys.length) = j)]
            rw [Nat.mod_eq_of_lt hj, hkj']
            exact hkerr
        · have hmod : (s.current_key_index + 1) % s.api_keys.length < s.api_keys.length :=
            Nat.mod_lt _ hn
          refine ⟨j + s.api_keys.length -
            (s.current_key_index + 1) % s.api_keys.length, ?_, ?_⟩
          · omega
          · rw [Nat.add_mod (s.current_key_index + 1)]
            rw [Nat.mod_eq_of_lt (by omega : j + s.api_keys.length -
              (s.current_key_index + 1) % s.api_keys.length < s.api_keys.length)]
            rw [(by omega : (s.current_key_index + 1) % s.api_keys.length +
              (j + s.api_keys.length -
                (s.current_key_index + 1) % s.api_keys.length) =
              j + s.api_keys.length)]
            rw [Nat.add_mod_right]
            rw [Nat.mod_eq_of_lt hj, hkj']
            exact hkerr
      · rw [if_neg hrot]
        have := hrot
        unfold should_rotate_check at this
        simp only [Bool.or_eq_true, decide_eq_true_eq, not_or] at this
        have herr : ¬ (s.max_errors_per_key ≤
            s.key_error_count (get_current_key s)) := this.1.2
        show s.key_error_count (get_current_key s) < s.max_errors_per_key
        omega
  · intro s b hidx hall
    have hn : 0 < s.api_keys.length := by omega
    unfold rotate_key
    by_cases h1 : s.api_keys.length = 1
    · rw [if_pos (by simpa using h1)]
    · rw [if_neg (by simpa using h1)]
      by_cases hrot : should_rotate_check s b = true
      · rw [if_pos hrot]
        show (rotatedState s).current_key_index = s.current_key_index
        unfold rotatedState
        show findHealthyIdx s s.api_keys.length s.current_key_index = s.current_key_index
        rw [findHealthyIdx_stuck s hall s.api_keys.length s.current_key_index hidx]
        rw [Nat.add_mod_right]
        exact Nat.mod_eq_of_lt hidx
      · rw [if_neg hrot]

/-- A two-credential pool whose current credential sits at the error
cap while the other is healthy. -/
def rotDemo : RotState :=
  ⟨["alpha", "beta"], 0, fun _ => 0, fun k => if k == "alpha" then 5 else 0, 150, 5⟩

/-- Witness for `claim_C7_theorem`: rotating away from the at-cap
credential selects one below the cap. -/
theorem claim_C7_witness :
    rotDemo.key_error_count (rotate_key rotDemo true).2 < rotDemo.max_errors_per_key :=
  claim_C7_theorem.2.1 rotDemo true (by decide) ⟨"beta", by decide, by decide⟩

/-! ## `LeadSegmenter.calculate_adoption_level` (source lines 534-582)

Numeric values are Python floats; the model uses exact unnormalised
fractions (`PyNum`, positive denominators), which agree with IEEE
doubles at every comparison the classifier makes (small integers and
one-digit decimals against 0.5, 1.5, 60, 1000).
`pd.to_numeric(x, errors='coerce')` yields NaN on unparsable input, and
`NaN or 0` is NaN because NaN is truthy, so a failed parse flows into
the comparisons as NaN — modelled as `none`, which compares false under
both `≤` and `≥`, exactly like NaN.  A `float()` call on a matched
group with more than one dot raises `ValueError`, which the enclosing
`try` turns into `'moderate_adopter'`: `followerCount` returns `none`
for that path.  `re.search(r'([\d.]+)k', s)` finds the leftmost maximal
run of `[0-9.]` characters immediately followed by `k` (the `+` cannot
backtrack past a non-`k` follower since `k` is not in the class). -/

structure PyNum where
  num : Int
  den : Nat
deriving DecidableEq

def pnLe (x y : PyNum) : Bool := decide (x.num * (y.den : Int) ≤ y.num * (x.den : Int))

def pnLt (x y : PyNum) : Bool := decide (x.num * (y.den : Int) < y.num * (x.den : Int))

def pnOfNat (n : Nat) : PyNum := ⟨n, 1⟩

def pnMulNat (x : PyNum) (m : Nat) : PyNum := ⟨x.num * m, x.den⟩

def natOfDigits (cs : List Char) : Nat := cs.foldl (fun a c => 10 * a + (c.toNat - 48)) 0

/-- Python `float()` on a string of digits and dots (the only shapes
the follower regexes can capture): fails on more than one dot or on no
digit at all. -/
def pyFloatDigits (cs : List Char) : Option PyNum :=
  if cs.isEmpty then none
  else if !(cs.all (fun c => c.isDigit || c == '.')) then none
  else if 1 < cs.count '.' then none
  else if !(cs.any Char.isDigit) then none
  else
    let ip := cs.takeWhile (fun c => c != '.')
    let fp := (cs.dropWhile (fun c => c != '.')).drop 1
    some ⟨((natOfDigits ip * 10 ^ fp.length + natOfDigits fp : Nat) : Int), 10 ^ fp.length⟩

/-- `pd.to_numeric(s, errors='coerce')` on the decimal-literal strings
the generated CSV carries (optional sign, digits, optional fraction);
`none` is NaN. -/
def pyToNumeric (s : String) : Option PyNum :=
  match s.data with
  | '-' :: rest => (pyFloatDigits rest).map (fun x => ⟨-x.num, x.den⟩)
  | cs => pyFloatDigits cs

/-- `v ≤ q` under NaN semantics (NaN compares false). -/
def nanLe (x : Option PyNum) (y : PyNum) : Bool :=
  match x with
  | some v => pnLe v y
  | none => false

/-- `v ≥ q` under NaN semantics. -/
def nanGe (x : Option PyNum) (y : PyNum) : Bool :=
  match x with
  | some v => pnLe y v
  | none => false

/-- `score_map = {'none': 0, 'minimal': 1, 'moderate': 2, 'strong': 3}`
with `.get(presence, 0)`. -/
def scoreMap (presence : String) : Nat :=
  if presence == "none" then 0
  else if presence == "minimal" then 1
  else if presence == "moderate" then 2
  else if presence == "strong" then 3
  else 0

def isNumChar (c : Char) : Bool := c.isDigit || c == '.'

/-- Leftmost maximal `[0-9.]` run immediately followed by `c`
(`re.search(r'([\d.]+)c', s)`, group 1). -/
def findRunBeforeAux (c : Char) (acc : List Char) : List Char → Option (List Char)
  | [] => none
  | x :: xs =>
    if isNumChar x then findRunBeforeAux c (x :: acc) xs
    else if x == c && !acc.isEmpty then some acc.reverse
    else findRunBeforeAux c [] xs

def findRunBefore (c : Char) (s : List Char) : Option (List Char) :=
  findRunBeforeAux c [] s

/-- Leftmost maximal `[0-9.]` run (`re.search(r'[\d.]+', s)`). -/
def findRun : List Char → Option (List Char)
  | [] => none
  | x :: xs => if isNumChar x then some ((x :: xs).takeWhile isNumChar) else findRun xs

/-- Follower-count parsing, lines 555-568.  `none` models the
`float()` `ValueError` path (caught by the outer `try`); an absent
regex match leaves the count at 0. -/
def followerCount (fs : String) : Option PyNum :=
  let s := (pyLower fs).data
  if s.contains 'k' then
    match findRunBefore 'k' s with
    | none => some (pnOfNat 0)
    | some g => (pyFloatDigits g).map (fun x => pnMulNat x 1000)
  else if s.contains 'm' then
    match findRunBefore 'm' s with
    | none => some (pnOfNat 0)
    | some g => (pyFloatDigits g).map (fun x => pnMulNat x 1000000)
  else
    match findRun s with
    | none => some (pnOfNat 0)
    | some g => pyFloatDigits g

/-- The classifier's input fields of one row (always-present string
cells; `row.get` defaults apply only to absent columns). -/
structure LeadRow where
  current_social_presence_score : String
  content_frequency_score : String
  opportunity_score : String
  instagram_presence : String
  tiktok_presence : String
  youtube_shorts_presence : String
  follower_count_estimate : String
deriving DecidableEq

/-- Sum of the three platform scores; the code divides by 3 for the
average, here kept as the fraction `⟨sum, 3⟩`. -/
def avgPlatformNum (row : LeadRow) : Nat :=
  scoreMap (pyLower row.instagram_presence) +
  scoreMap (pyLower row.tiktok_presence) +
  scoreMap (pyLower row.youtube_shorts_presence)

/-- Rule 1 (lines 571-572): `social_score <= 3 and avg_platform_score
<= 0.5 and content_freq <= 3 and follower_count < 1000`. -/
def nonAdopterCond (row : LeadRow) (fc : PyNum) : Bool :=
  nanLe (pyToNumeric row.current_social_presence_score) (pnOfNat 3) &&
  pnLe ⟨(avgPlatformNum row : Int), 3⟩ ⟨1, 2⟩ &&
  nanLe (pyToNumeric row.content_frequency_score) (pnOfNat 3) &&
  pnLt fc (pnOfNat 1000)

/-- Rule 2 (lines 574-575): `social_score >= 4 and avg_platform_score
>= 1.5 and content_freq >= 6 and follower_count >= 1000 and
opportunity_score >= 60`. -/
def highVolumeCond (row : LeadRow) (fc : PyNum) : Bool :=
  nanGe (pyToNumeric row.current_social_presence_score) (pnOfNat 4) &&
  pnLe ⟨3, 2⟩ ⟨(avgPlatformNum row : Int), 3⟩ &&
  nanGe (pyToNumeric row.content_frequency_score) (pnOfNat 6) &&
  pnLe (pnOfNat 1000) fc &&
  nanGe (pyToNumeric row.opportunity_score) (pnOfNat 60)

/-- `LeadSegmenter.calculate_adoption_level`. -/
def calculate_adoption_level (row : LeadRow) : String :=
  match followerCount row.follower_count_estimate with
  | none => "moderate_adopter"
  | some fc =>
    if nonAdopterCond row fc then "non_adopter"
    else if highVolumeCond row fc then "high_volume_poor_results"
    else "moderate_adopter"

def vecNonAdopter : LeadRow := ⟨"2", "1", "50", "none", "none", "none", "500"⟩

def vecHighVolume : LeadRow := ⟨"8", "9", "80", "strong", "strong", "strong", "50k"⟩

def vecModerate : LeadRow := ⟨"5", "4", "50", "minimal", "minimal", "minimal", "2k"⟩

/-- C6: the classifier is a pure function evaluating its two rules in
order with `moderate_adopter` as the fallback (also on the `float()`
exception path), and classifies the spec's three test vectors as
`non_adopter`, `high_volume_poor_results` and `moderate_adopter`. -/
theorem claim_C6_theorem :
    calculate_adoption_level vecNonAdopter = "non_adopter" ∧
    calculate_adoption_level vecHighVolume = "high_volume_poor_results" ∧
    calculate_adoption_level vecModerate = "moderate_adopter" ∧
    (∀ (row : LeadRow) (fc : PyNum),
      followerCount row.follower_count_estimate = some fc →
      (nonAdopterCond row fc = true →
        calculate_adoption_level row = "non_adopter") ∧
      (nonAdopterCond row fc = false → highVolumeCond row fc = true →
        calculate_adoption_level row = "high_volume_poor_results") ∧
      (nonAdopterCond row fc = false → highVolumeCond row fc = false →
        calculate_adoption_level row = "moderate_adopter")) ∧
    (∀ row : LeadRow, followerCount row.follower_count_estimate = none →
      calculate_adoption_level row = "moderate_adopter") := by
  refine ⟨by decide, by decide, by decide, ?_, ?_⟩
  · intro row fc h
    refine ⟨?_, ?_, ?_⟩
    · intro h1
      simp [calculate_adoption_level, h, h1]
    · intro h1 h2
      simp [calculate_adoption_level, h, h1, h2]
    · intro h1 h2
      simp [calculate_adoption_level, h, h1, h2]
  · intro row h
    simp [calculate_adoption_level, h]

/-- Witness for `claim_C6_theorem` at the non-adopter test vector. -/
theorem claim_C6_witness :
    calculate_adoption_level vecNonAdopter = "non_adopter" :=
  (claim_C6_theorem.2.2.2.1 vecNonAdopter (pnOfNat 500) (by decide)).1 (by decide)

/-! ## `LeadSegmenter.segment_leads` (source lines 522-676) and the
`Config` file-name attributes (lines 80-88)

`Config` defines the segmented output files `premium_leads_file`,
`standard_leads_file` and `emerging_leads_file`, but
`_create_segmented_files` (lines 632-649) and
`_log_segmentation_stats` (lines 651-663) read
`config.non_adopters_file`, `config.moderate_adopters_file` and
`config.high_volume_poor_results_file` — attributes `Config` does not
define.  Python attribute lookup is modelled by `SegConfig.getattr`
returning `none` (an `AttributeError`) for undefined names.
`pd.read_csv` (with its encoding fallback) belongs to the external
tabular engine and is an oracle `Except String (List SegRow)`; missing
cells (NaN) are modelled as `""`.  The filesystem is an association
list, newest write first.  State written before a failure persists:
failures carry the filesystem at the moment they are raised, and the
top-level `try/except` of `segment_leads` converts them into a logged
message.  `pandas.sort_values` (default unstable quicksort) fixes no
order on ties, so the model commits to one refinement (a stable
insertion sort on the parsed key columns, descending). -/

structure SegConfig where
  output_file : String
  premium_leads_file : String
  standard_leads_file : String
  emerging_leads_file : String
deriving DecidableEq

/-- Attribute lookup on the `Config` dataclass restricted to its
file-name attributes (the other attributes are numeric and never read
by the segmenter). -/
def SegConfig.getattr (c : SegConfig) (attrName : String) : Option String :=
  if attrName == "output_file" then some c.output_file
  else if attrName == "premium_leads_file" then some c.premium_leads_file
  else if attrName == "standard_leads_file" then some c.standard_leads_file
  else if attrName == "emerging_leads_file" then some c.emerging_leads_file
  else none

def emailLocalChar (c : Char) : Bool :=
  c.isAlphanum || c == '.' || c == '_' || c == '%' || c == '+' || c == '-'

def emailDomainChar (c : Char) : Bool := c.isAlphanum || c == '.' || c == '-'

/-- `validate_email` (lines 528-532):
`re.match(r'^[a-zA-Z0-9._%+-]+@[a-zA-Z0-9.-]+\.[a-zA-Z]{2,}', email)`.
Since `@` is outside the local-part class, the regex matches iff the
leading local-class run is non-empty and followed by `@`, and some
split of the remainder gives a non-empty domain-class run, a dot, and
two alphabetic characters (prefix match; trailing text is allowed). -/
def validate_email (email : String) : Bool :=
  let cs := email.data
  let lp := cs.takeWhile emailLocalChar
  let rest := cs.drop lp.length
  !lp.isEmpty &&
    (match rest with
     | '@' :: r =>
        (List.range r.length).any (fun j =>
          decide (1 ≤ j) && (r.take j).all emailDomainChar &&
          (r.getD j ' ' == '.') &&
          (r.getD (j + 1) ' ').isAlpha && (r.getD (j + 2) ' ').isAlpha)
     | _ => false)

/-- One loaded CSV row, restricted to the columns the segmenter reads
(`name`, `email`, the classifier inputs, and the sort tiebreakers). -/
structure SegRow where
  name : String
  email : String
  core : LeadRow
  contact_likelihood : String
  visual_content_suitability : String
  adoption_level : String
deriving DecidableEq

/-- `df.dropna(subset=['name', 'email',
'current_social_presence_score'])` (line 603). -/
def dropnaRows (df : List SegRow) : List SegRow :=
  df.filter (fun r =>
    !(r.name == "") && !(r.email == "") &&
    !(r.core.current_social_presence_score == ""))

/-- Lines 604-605: keep rows whose email validates. -/
def filterValidEmails (df : List SegRow) : List SegRow :=
  df.filter (fun r => validate_email r.email)

def dedupByEmailAux (seen : List String) : List SegRow → List SegRow
  | [] => []
  | r :: rs =>
    if r.email ∈ seen then dedupByEmailAux seen rs
    else r :: dedupByEmailAux (r.email :: seen) rs

/-- `df.drop_duplicates(subset=['email'], keep='first')` (line 609). -/
def drop_duplicates_email (df : List SegRow) : List SegRow := dedupByEmailAux [] df

/-- `df['adoption_level'] = df.apply(self.calculate_adoption_level,
axis=1)` (line 614). -/
def addAdoptionLevels (df : List SegRow) : List SegRow :=
  df.map (fun r => { r with adoption_level := calculate_adoption_level r.core })

def fsWrite (fs : List (String × String)) (path content : String) :
    List (String × String) := (path, content) :: fs

def fsRead (fs : List (String × String)) (path : String) : Option String :=
  match fs with
  | [] => none
  | (p, c) :: rest => if p == path then some c else fsRead rest path

/-- Serialisation of the modelled columns (`to_csv`). -/
def rowToCsv (r : SegRow) : String :=
  pyJoin "," [r.name, r.email, r.core.current_social_presence_score,
    r.core.instagram_presence, r.core.tiktok_presence,
    r.core.youtube_shorts_presence, r.core.follower_count_estimate,
    r.core.content_frequency_score, r.core.opportunity_score,
    r.contact_likelihood, r.visual_content_suitability, r.adoption_level]

def tableToCsv (df : List SegRow) : String := pyJoin "\n" (df.map rowToCsv)

def optNumLt (a b : Option PyNum) : Bool :=
  match a, b with
  | some x, some y => pnLt x y
  | none, some _ => true
  | _, none => false

def keysLt : List (Option PyNum) → List (Option PyNum) → Bool
  | [], [] => false
  | [], _ :: _ => true
  | _ :: _, [] => false
  | a :: as, b :: bs =>
    if optNumLt a b then true else if optNumLt b a then false else keysLt as bs

def insertDescBy (key : SegRow → List (Option PyNum)) (x : SegRow) :
    List SegRow → List SegRow
  | [] => [x]
  | y :: ys =>
    if keysLt (key y) (key x) then x :: y :: ys else y :: insertDescBy key x ys

/-- `sort_values(cols, ascending=False)`, one deterministic refinement. -/
def sortDescBy (key : SegRow → List (Option PyNum)) : List SegRow → List SegRow
  | [] => []
  | x :: xs => insertDescBy key x (sortDescBy key xs)

def keyNonAdopters (r : SegRow) : List (Option PyNum) :=
  [pyToNumeric r.core.opportunity_score, pyToNumeric r.contact_likelihood]

def keyModerate (r : SegRow) : List (Option PyNum) :=
  [pyToNumeric r.core.opportunity_score, pyToNumeric r.visual_content_suitability]

def keyHigh (r : SegRow) : List (Option PyNum) :=
  [pyToNumeric r.core.opportunity_score]

/-- `_create_segmented_files` (lines 632-649), in source order: each
frame is filtered and sorted, then written to the file named by a
`Config` attribute the dataclass does not define, so the first write
raises `AttributeError` before touching the filesystem.  Failures
carry the filesystem state at the raise. -/
def create_segmented_files (cfg : SegConfig) (df : List SegRow)
    (fs : List (String × String)) :
    Except (String × List (String × String)) (List (String × String)) :=
  let non_adopters := sortDescBy keyNonAdopters
    (df.filter (fun r => r.adoption_level == "non_adopter"))
  match cfg.getattr "non_adopters_file" with
  | none => .error ("AttributeError: Config object has no attribute non_adopters_file", fs)
  | some f1 =>
    let fs1 := fsWrite fs f1 (tableToCsv non_adopters)
    let moderate := sortDescBy keyModerate
      (df.filter (fun r => r.adoption_level == "moderate_adopter"))
    match cfg.getattr "moderate_adopters_file" with
    | none =>
      .error ("AttributeError: Config object has no attribute moderate_adopters_file", fs1)
    | some f2 =>
      let fs2 := fsWrite fs1 f2 (tableToCsv moderate)
      let high := sortDescBy keyHigh
        (df.filter (fun r => r.adoption_level == "high_volume_poor_results"))
      match cfg.getattr "high_volume_poor_results_file" with
      | none =>
        .error ("AttributeError: Config object has no attribute high_volume_poor_results_file", fs2)
      | some f3 => .ok (fsWrite fs2 f3 (tableToCsv high))

/-- `segment_leads` (lines 584-630): load (external oracle), clean,
classify, write the bucket files, rewrite the master file, then
`_log_segmentation_stats` — whose first statistics loop iteration
(line 658) reads the same undefined `non_adopters_file` attribute.
The wrapping `try/except` turns any raised error into a logged message
(`some e`) and abandons the pass with the filesystem as it stood. -/
def segment_leads (cfg : SegConfig) (loadRes : Except String (List SegRow))
    (fs : List (String × String)) : List (String × String) × Option String :=
  match loadRes with
  | .error e => (fs, some e)
  | .ok df0 =>
    let df1 := drop_duplicates_email (filterValidEmails (dropnaRows df0))
    let df2 := addAdoptionLevels df1
    match create_segmented_files cfg df2 fs with
    | .error (e, fs2) => (fs2, some e)
    | .ok fs2 =>
      let fs3 := fsWrite fs2 cfg.output_file (tableToCsv df2)
      match cfg.getattr "non_adopters_file" with
      | none =>
        (fs3, some "AttributeError: Config object has no attribute non_adopters_file")
      | some _ => (fs3, none)

def segCfgDemo : SegConfig :=
  ⟨"MASTER_LEADS_10K.csv", "PREMIUM_leads.csv", "standard_leads.csv",
   "emerging_business_leads.csv"⟩

/-- A row that survives every cleaning step: non-empty name/email/
social score, valid email, unique. -/
def segRowDemo : SegRow := ⟨"Alice Co", "alice@foo.com", vecNonAdopter, "7", "8", ""⟩

def masterFsDemo : List (String × String) :=
  [("MASTER_LEADS_10K.csv", "header-and-rows")]

/-- C1 (code bug): on a CSV that loads and cleans successfully, the
segmentation pass writes NO bucket file and does NOT rewrite the
master CSV: the first bucket write reads `config.non_adopters_file`,
an attribute the `Config` dataclass does not define (it defines
`premium_leads_file`, `standard_leads_file`, `emerging_leads_file`
instead), so every segmentation run raises `AttributeError` at line
639 and the catch-all at line 629 abandons the pass.  The returned
filesystem is exactly the input filesystem. -/
theorem claim_C1_theorem :
    dropnaRows [segRowDemo] = [segRowDemo] ∧
    filterValidEmails [segRowDemo] = [segRowDemo] ∧
    drop_duplicates_email [segRowDemo] = [segRowDemo] ∧
    segment_leads segCfgDemo (.ok [segRowDemo]) masterFsDemo =
      (masterFsDemo,
       some "AttributeError: Config object has no attribute non_adopters_file") := by
  decide

/-- C8: whatever the load result and filesystem, if the segmentation
pass reports a caught exception then the filesystem — in particular
the master CSV produced by the generation phase — is unchanged.  (With
the undefined-attribute bug of C1, the failure always precedes the
first write, so the whole filesystem survives intact.) -/
theorem claim_C8_theorem :
    ∀ (cfg : SegConfig) (loadRes : Except String (List SegRow))
      (fs : List (String × String)) (e : String),
      (segment_leads cfg loadRes fs).2 = some e →
      (segment_leads cfg loadRes fs).1 = fs ∧
      fsRead (segment_leads cfg loadRes fs).1 cfg.output_file =
        fsRead fs cfg.output_file := by
  intro cfg loadRes fs e h
  match loadRes with
  | .error e2 => simp [segment_leads]
  | .ok df0 =>
    have hcr : ∀ df : List SegRow, create_segmented_files cfg df fs =
        .error ("AttributeError: Config object has no attribute non_adopters_file",
          fs) := by
      intro df
      rfl
    simp [segment_leads, hcr]

/-- Witness for `claim_C8_theorem` at a concrete failing load. -/
theorem claim_C8_witness :
    (segment_leads segCfgDemo (.error "boom")
      [("MASTER_LEADS_10K.csv", "x")]).1 = [("MASTER_LEADS_10K.csv", "x")] :=
  (claim_C8_theorem segCfgDemo (.error "boom") [("MASTER_LEADS_10K.csv", "x")]
    "boom" (by decide)).1
